import Mathlib

/-
  Verification of the football score prediction engine of app.py.

  The engine aggregates per-team xG statistics into a league table,
  estimates expected goals for a fixture, expands them into a truncated
  Poisson score grid, and selects the most likely score and the best
  guess under the Superbru point-scoring rule.

  Numeric embedding: finite Python/numpy floating point values are
  modelled exactly as rationals; the non-finite values produced by
  numpy division (inf, -inf, nan) are modelled by the carrier FVal.
  Real-valued transcendental quantities (the Poisson pmf) live in ℝ.
-/

namespace App

/-- Match outcome direction of a scoreline, the result letters "H",
    "A", "D" computed at app.py lines 203-204. -/
inductive Outcome
  | H
  | A
  | D
deriving DecidableEq

/-- The result letter of a scoreline x-y, from app.py lines 203-204:
    "H" if x > y else "A" if x < y else "D". -/
def matchResult (x y : ℤ) : Outcome :=
  if x > y then .H else if x < y then .A else .D

/-- Function calculate_superbru_points, app.py lines 198-213.  Goal
    counts are integers; the returned float is one of 3.0, 1.5, 1.0,
    0.0, modelled exactly in ℚ. -/
def calculate_superbru_points (guess_home guess_away actual_home actual_away : ℤ) : ℚ :=
  if guess_home = actual_home ∧ guess_away = actual_away then 3
  else if (|guess_home - actual_home| ≤ 1 ∧ |guess_away - actual_away| ≤ 1) ∧
      matchResult guess_home guess_away = matchResult actual_home actual_away then 1.5
  else if matchResult guess_home guess_away = matchResult actual_home actual_away then 1
  else 0

/-- IEEE 754 style value carrier for the numpy float arithmetic in
    predict_goals: a finite rational, plus infinity, minus infinity,
    or nan. -/
inductive FVal
  | fin (x : ℚ)
  | pinf
  | ninf
  | nan
deriving DecidableEq

/-- Division following numpy float64 semantics: finite by zero gives a
    signed infinity (nan for zero by zero), nan propagates, a finite
    value divided by an infinity gives zero. -/
def FVal.div : FVal → FVal → FVal
  | .nan, _ => .nan
  | _, .nan => .nan
  | .fin a, .fin b =>
      if b = 0 then (if a = 0 then .nan else if 0 < a then .pinf else .ninf)
      else .fin (a / b)
  | .fin _, .pinf => .fin 0
  | .fin _, .ninf => .fin 0
  | .pinf, .fin b => if 0 ≤ b then .pinf else .ninf
  | .ninf, .fin b => if 0 ≤ b then .ninf else .pinf
  | .pinf, .pinf => .nan
  | .pinf, .ninf => .nan
  | .ninf, .pinf => .nan
  | .ninf, .ninf => .nan

/-- One row of the team statistics DataFrame built by
    fetch_understat_xg_data, app.py lines 96-111: raw per-venue sums
    and games-played counts plus the four derived average columns. -/
structure TeamRow where
  team : String
  home_games_played : ℕ
  xg_home : ℚ
  xga_home : ℚ
  away_games_played : ℕ
  xg_away : ℚ
  xga_away : ℚ
  avg_xg_home : ℚ
  avg_xga_home : ℚ
  avg_xg_away : ℚ
  avg_xga_away : ℚ
deriving DecidableEq

/-- One entry of a team match history as consumed by
    fetch_understat_xg_data, app.py lines 93-104: venue flag
    (h_a equal to the letter h), xG and xGA. -/
structure MatchRec where
  is_home : Bool
  xG : ℚ
  xGA : ℚ

/-- The per-team aggregation inside fetch_understat_xg_data, app.py
    lines 93-111: partition the history by venue, sum xG and xGA,
    count games, and compute the four averages dividing by the
    games-played count with 0 replaced by 1 (pandas replace(0, 1)). -/
def aggregateTeam (title : String) (history : List MatchRec) : TeamRow :=
  let home_matches := history.filter (fun m => m.is_home)
  let away_matches := history.filter (fun m => !m.is_home)
  let hg := home_matches.length
  let ag := away_matches.length
  let xgh := (home_matches.map (fun m => m.xG)).sum
  let xgah := (home_matches.map (fun m => m.xGA)).sum
  let xga := (away_matches.map (fun m => m.xG)).sum
  let xgaa := (away_matches.map (fun m => m.xGA)).sum
  { team := title
    home_games_played := hg
    xg_home := xgh
    xga_home := xgah
    away_games_played := ag
    xg_away := xga
    xga_away := xgaa
    avg_xg_home := xgh / (if hg = 0 then 1 else (hg : ℚ))
    avg_xga_home := xgah / (if hg = 0 then 1 else (hg : ℚ))
    avg_xg_away := xga / (if ag = 0 then 1 else (ag : ℚ))
    avg_xga_away := xgaa / (if ag = 0 then 1 else (ag : ℚ)) }

/-- Failure modes of the fixture prediction.  The code, app.py line
    131, looks a team up with data[data[Team] == name].iloc[0], which
    raises a positional IndexError carrying no team name when the team
    is absent; unknownTeam is the error kind the spec section 4.2
    prescribes and is never produced by the code. -/
inductive PredErr
  | indexError
  | unknownTeam (missing : List String)
deriving DecidableEq

/-- Sum of one numeric column over the table (pandas Series.sum). -/
def colSum (f : TeamRow → ℚ) (data : List TeamRow) : ℚ :=
  (data.map f).sum

/-- Function predict_goals, app.py lines 126-145: league-wide per-game
    conceded averages, first-row team lookups, and the attack times
    defence over league-norm products. -/
def predict_goals (home_team_name away_team_name : String) (data : List TeamRow) :
    Except PredErr (FVal × FVal) :=
  let avg_xGA_away_per_game :=
    FVal.div (.fin (colSum (fun r => r.xga_away) data))
      (.fin (colSum (fun r => (r.away_games_played : ℚ)) data))
  let avg_xGA_home_per_game :=
    FVal.div (.fin (colSum (fun r => r.xga_home) data))
      (.fin (colSum (fun r => (r.home_games_played : ℚ)) data))
  match data.find? (fun r => r.team == home_team_name) with
  | none => .error .indexError
  | some home_team =>
    match data.find? (fun r => r.team == away_team_name) with
    | none => .error .indexError
    | some away_team =>
      .ok
        (FVal.div (.fin (home_team.avg_xg_home * away_team.avg_xga_away)) avg_xGA_away_per_game,
         FVal.div (.fin (away_team.avg_xg_away * home_team.avg_xga_home)) avg_xGA_home_per_game)

/-- Recogniser for the spec-mandated unknown-team error kind. -/
def isUnknownTeamErr {β : Type} : Except PredErr β → Bool
  | .error (.unknownTeam _) => true
  | _ => false

/-- The canonical iteration order over the truncated score grid: home
    goals 0..6 ascending, then away goals ascending — the nested loops
    over range(max_goals + 1) at app.py lines 157-158 and 178-179,
    with max_goals = 6 (line 151). -/
def cells : List (ℕ × ℕ) :=
  (List.range 7).flatMap (fun h => (List.range 7).map (fun a => (h, a)))

/-- Poisson probability mass function, exp (-lam) * lam ^ k / k!, the
    scipy poisson.pmf(k, mu) used at app.py lines 159-160. -/
noncomputable def poissonPMF (lam : ℝ) (k : ℕ) : ℝ :=
  Real.exp (-lam) * lam ^ k / (Nat.factorial k : ℝ)

/-- The dense probability table built by the first loop of
    best_superbru_prediction, app.py lines 157-167: one record
    (home goals, away goals, probability) per cell in canonical order;
    the probability is the product of the two Poisson marginals and no
    renormalisation is applied. -/
noncomputable def scoreGrid (lam_home lam_away : ℝ) : List (ℕ × ℕ × ℝ) :=
  cells.map (fun c => (c.1, c.2, poissonPMF lam_home c.1 * poissonPMF lam_away c.2))

/-- One step of the running-maximum scan used for both selections in
    best_superbru_prediction (update exactly on a strict improvement,
    app.py lines 169-171 and 192-194).  The accumulator none models a
    running maximum that any value beats. -/
def selStep {α : Type} [LinearOrder α] (f : ℕ × ℕ → α) :
    Option ((ℕ × ℕ) × α) → ℕ × ℕ → Option ((ℕ × ℕ) × α)
  | none, c => some (c, f c)
  | some (b, m), c => if m < f c then some (c, f c) else some (b, m)

/-- Expected Superbru points of a guess against a probability grid,
    app.py lines 180-190: the sum over all cells of points times
    probability. -/
def expPoints {α : Type} [LinearOrderedField α] (prob : ℕ → ℕ → α) (g : ℕ × ℕ) : α :=
  (cells.map (fun c =>
    ((calculate_superbru_points (g.1 : ℤ) (g.2 : ℤ) (c.1 : ℤ) (c.2 : ℤ) : ℚ) : α) *
      prob c.1 c.2)).sum

/-- The best-guess selection of best_superbru_prediction, app.py lines
    175-194: scan all candidate guesses in canonical order keeping the
    first strict improvement of expected points.  The initial maximum
    in the code is the float minus infinity, modelled by the none
    accumulator, so the first candidate always installs itself. -/
def best_guess {α : Type} [LinearOrderedField α] (prob : ℕ → ℕ → α) : ℕ × ℕ :=
  ((cells.foldl (selStep (expPoints prob)) none).map Prod.fst).getD (0, 0)

/-- The most-likely-score selection of best_superbru_prediction,
    app.py lines 154-171: a running maximum started at probability 0
    with score 0-0, updated on strict improvement over the same
    canonical iteration. -/
def most_likely {α : Type} [LinearOrderedField α] (prob : ℕ → ℕ → α) : ℕ × ℕ :=
  ((cells.foldl (selStep (fun c => prob c.1 c.2)) (some ((0, 0), 0))).map Prod.fst).getD (0, 0)

/-- The pmf applied to a possibly non-finite expected-goals value.  For
    a finite lam this is the exact pmf.  For nan or an infinity scipy
    yields nan at every cell, and a nan never wins the strict greater
    comparison against the running maximum, which is observationally
    identical to a grid of zero probabilities in the two scans above,
    so those cases are modelled as probability 0. -/
noncomputable def pmfF (lam : FVal) (k : ℕ) : ℝ :=
  match lam with
  | .fin x => poissonPMF (x : ℝ) k
  | _ => 0

/-- Function best_superbru_prediction, app.py lines 147-196: estimate
    expected goals, build the probability grid, and return the pair
    (best guess, most likely score).  The code formats both as strings
    h-a; the two numeric pairs carry the same information. -/
noncomputable def best_superbru_prediction (home_team_name away_team_name : String)
    (data : List TeamRow) : Except PredErr ((ℕ × ℕ) × (ℕ × ℕ)) :=
  match predict_goals home_team_name away_team_name data with
  | .error e => .error e
  | .ok (lh, la) =>
    .ok (best_guess (fun h a => pmfF lh h * pmfF la a),
         most_likely (fun h a => pmfF lh h * pmfF la a))

/-- State-passing form of predict_goals: every access the function
    makes to the DataFrame data is threaded explicitly, returning the
    table alongside the value, so that the absence of mutation is a
    theorem rather than a convention.  Mirrors app.py lines 126-145
    statement by statement. -/
def predict_goals_st (home_team_name away_team_name : String) (data : List TeamRow) :
    Except PredErr (FVal × FVal) × List TeamRow :=
  -- line 128
  let s1 := (colSum (fun r => r.xga_away) data, data)
  let s2 := (colSum (fun r => (r.away_games_played : ℚ)) s1.2, s1.2)
  let avg_xGA_away_per_game := FVal.div (.fin s1.1) (.fin s2.1)
  -- line 129
  let s3 := (colSum (fun r => r.xga_home) s2.2, s2.2)
  let s4 := (colSum (fun r => (r.home_games_played : ℚ)) s3.2, s3.2)
  let avg_xGA_home_per_game := FVal.div (.fin s3.1) (.fin s4.1)
  -- line 131
  let s5 := (s4.2.find? (fun r => r.team == home_team_name), s4.2)
  match s5.1 with
  | none => (.error .indexError, s5.2)
  | some home_team =>
    -- line 132
    let s6 := (s5.2.find? (fun r => r.team == away_team_name), s5.2)
    match s6.1 with
    | none => (.error .indexError, s6.2)
    | some away_team =>
      (.ok
        (FVal.div (.fin (home_team.avg_xg_home * away_team.avg_xga_away)) avg_xGA_away_per_game,
         FVal.div (.fin (away_team.avg_xg_away * home_team.avg_xga_home)) avg_xGA_home_per_game),
       s6.2)

/-- State-passing form of best_superbru_prediction: the only access it
    makes to the table is through predict_goals (app.py line 149); the
    remaining loops work on the freshly built local probability list. -/
noncomputable def best_superbru_prediction_st (home_team_name away_team_name : String)
    (data : List TeamRow) : Except PredErr ((ℕ × ℕ) × (ℕ × ℕ)) × List TeamRow :=
  let s1 := predict_goals_st home_team_name away_team_name data
  match s1.1 with
  | .error e => (.error e, s1.2)
  | .ok (lh, la) =>
    (.ok (best_guess (fun h a => pmfF lh h * pmfF la a),
          most_likely (fun h a => pmfF lh h * pmfF la a)),
     s1.2)

/-- A healthy two-team table: team A with average home xG 3/2, team B
    with average away xGA 1, both league per-game conceded averages
    equal to 1. -/
def rowWA : TeamRow :=
  { team := "A", home_games_played := 1, xg_home := 3 / 2, xga_home := 1
    away_games_played := 1, xg_away := 1, xga_away := 1
    avg_xg_home := 3 / 2, avg_xga_home := 1, avg_xg_away := 1, avg_xga_away := 1 }

/-- Second team of the healthy table. -/
def rowWB : TeamRow :=
  { team := "B", home_games_played := 1, xg_home := 1, xga_home := 1
    away_games_played := 1, xg_away := 1, xga_away := 1
    avg_xg_home := 1, avg_xga_home := 1, avg_xg_away := 1, avg_xga_away := 1 }

/-- The healthy two-team league table. -/
def tblW : List TeamRow := [rowWA, rowWB]

/-- A consistent table whose away games counts are positive but whose
    league-wide summed away xGA is zero. -/
def rowZA : TeamRow :=
  { team := "A", home_games_played := 1, xg_home := 1, xga_home := 1
    away_games_played := 1, xg_away := 1, xga_away := 0
    avg_xg_home := 1, avg_xga_home := 1, avg_xg_away := 1, avg_xga_away := 0 }

/-- Second team of the zero-away-xGA table. -/
def rowZB : TeamRow :=
  { team := "B", home_games_played := 1, xg_home := 1, xga_home := 1
    away_games_played := 1, xg_away := 1, xga_away := 0
    avg_xg_home := 1, avg_xga_home := 1, avg_xg_away := 1, avg_xga_away := 0 }

/-- The two-team table with zero league-wide away xGA. -/
def tblZ : List TeamRow := [rowZA, rowZB]

/-- A consistent table in which no team has played away yet, so the
    league-wide summed away games-played is zero. -/
def rowDA : TeamRow :=
  { team := "A", home_games_played := 1, xg_home := 1, xga_home := 1
    away_games_played := 0, xg_away := 0, xga_away := 0
    avg_xg_home := 1, avg_xga_home := 1, avg_xg_away := 0, avg_xga_away := 0 }

/-- Second team of the zero-away-games table. -/
def rowDB : TeamRow :=
  { team := "B", home_games_played := 1, xg_home := 1, xga_home := 1
    away_games_played := 0, xg_away := 0, xga_away := 0
    avg_xg_home := 1, avg_xga_home := 1, avg_xg_away := 0, avg_xga_away := 0 }

/-- The two-team table with zero away games played league-wide. -/
def tblDeg : List TeamRow := [rowDA, rowDB]

/-- Claim C1: the Superbru points function awards exactly 3.0 for an
    exact scoreline; otherwise 1.5 when the guessed outcome direction
    (home win, away win, or draw) equals the actual direction and each
    guessed goal count is within 1 of the actual count; otherwise 1.0
    when only the direction matches; otherwise 0.0 — together with the
    four quoted example values 3.0, 1.5, 1.0, 0.0. -/
theorem calculate_superbru_points_spec :
    (∀ guess_home guess_away actual_home actual_away : ℤ,
      calculate_superbru_points guess_home guess_away actual_home actual_away =
        if guess_home = actual_home ∧ guess_away = actual_away then 3
        else if ((guess_home > guess_away ∧ actual_home > actual_away) ∨
                 (guess_home < guess_away ∧ actual_home < actual_away) ∨
                 (guess_home = guess_away ∧ actual_home = actual_away)) ∧
                |guess_home - actual_home| ≤ 1 ∧ |guess_away - actual_away| ≤ 1 then 1.5
        else if (guess_home > guess_away ∧ actual_home > actual_away) ∨
                (guess_home < guess_away ∧ actual_home < actual_away) ∨
                (guess_home = guess_away ∧ actual_home = actual_away) then 1
        else 0) ∧
    calculate_superbru_points 3 1 3 1 = 3 ∧
    calculate_superbru_points 2 1 3 1 = 1.5 ∧
    calculate_superbru_points 1 0 3 0 = 1 ∧
    calculate_superbru_points 0 0 1 0 = 0 := by
  refine ⟨?_, by norm_num [calculate_superbru_points, matchResult],
    by norm_num [calculate_superbru_points, matchResult],
    by norm_num [calculate_superbru_points, matchResult],
    by decide⟩
  intro gh ga ah aa
  unfold calculate_superbru_points matchResult
  split_ifs <;> try rfl
  all_goals exfalso
  all_goals try simp_all
  all_goals omega

set_option maxHeartbeats 1600000 in
/-- Claim C10: the points function is invariant under simultaneously
    swapping the home and away roles of both the guess and the actual
    scoreline. -/
theorem calculate_superbru_points_swap (gh ga ah aa : ℤ) :
    calculate_superbru_points gh ga ah aa = calculate_superbru_points ga gh aa ah := by
  unfold calculate_superbru_points matchResult
  split_ifs <;> try rfl
  all_goals exfalso
  all_goals try simp_all
  all_goals omega

/-- Claim C8: each of the four per-venue averages equals the summed
    xG or xGA for that venue divided by max(games played, 1), and a
    venue with zero games played yields zero averages rather than a
    division failure. -/
theorem aggregateTeam_spec (title : String) (history : List MatchRec) :
    ((aggregateTeam title history).avg_xg_home =
        (aggregateTeam title history).xg_home /
          ((max (aggregateTeam title history).home_games_played 1 : ℕ) : ℚ) ∧
      (aggregateTeam title history).avg_xga_home =
        (aggregateTeam title history).xga_home /
          ((max (aggregateTeam title history).home_games_played 1 : ℕ) : ℚ) ∧
      (aggregateTeam title history).avg_xg_away =
        (aggregateTeam title history).xg_away /
          ((max (aggregateTeam title history).away_games_played 1 : ℕ) : ℚ) ∧
      (aggregateTeam title history).avg_xga_away =
        (aggregateTeam title history).xga_away /
          ((max (aggregateTeam title history).away_games_played 1 : ℕ) : ℚ)) ∧
    ((aggregateTeam title history).home_games_played = 0 →
      (aggregateTeam title history).avg_xg_home = 0 ∧
        (aggregateTeam title history).avg_xga_home = 0) ∧
    ((aggregateTeam title history).away_games_played = 0 →
      (aggregateTeam title history).avg_xg_away = 0 ∧
        (aggregateTeam title history).avg_xga_away = 0) := by
  have hmax : ∀ n : ℕ, (if n = 0 then (1 : ℚ) else (n : ℚ)) = ((max n 1 : ℕ) : ℚ) := by
    intro n
    rcases n with _ | m
    · simp
    · have h1 : max (m + 1) 1 = m + 1 := by omega
      simp [h1]
  refine ⟨⟨?_, ?_, ?_, ?_⟩, ?_, ?_⟩
  · simp only [aggregateTeam]
    rw [hmax]
  · simp only [aggregateTeam]
    rw [hmax]
  · simp only [aggregateTeam]
    rw [hmax]
  · simp only [aggregateTeam]
    rw [hmax]
  · intro h
    simp only [aggregateTeam] at h ⊢
    have h0 : history.filter (fun m => m.is_home) = [] := List.length_eq_zero.mp h
    simp [h0]
  · intro h
    simp only [aggregateTeam] at h ⊢
    have h0 : history.filter (fun m => !m.is_home) = [] := List.length_eq_zero.mp h
    simp [h0]

/-- Witness for claim C8 at the empty history: zero home games and
    zero home averages. -/
theorem aggregateTeam_spec_witness :
    (aggregateTeam "T" []).home_games_played = 0 ∧
    (aggregateTeam "T" []).avg_xg_home = 0 ∧ (aggregateTeam "T" []).avg_xga_home = 0 := by
  have h := (aggregateTeam_spec "T" []).2.1
  exact ⟨by decide, h (by decide)⟩

/-- Claim C2, amended: when both teams occur in the table and both
    league-wide summed games-played counts and both league-wide summed
    xGA columns are nonzero (so every divisor is nonzero), the
    estimator returns exactly the attack times opposing-defence over
    league-average products of the spec formula.  Without the nonzero
    xGA sums the division produces a non-finite float instead of the
    formula value. -/
theorem predict_goals_formula (hn an : String) (data : List TeamRow)
    (home_team away_team : TeamRow)
    (h1 : data.find? (fun r => r.team == hn) = some home_team)
    (h2 : data.find? (fun r => r.team == an) = some away_team)
    (h3 : colSum (fun r => (r.away_games_played : ℚ)) data ≠ 0)
    (h4 : colSum (fun r => (r.home_games_played : ℚ)) data ≠ 0)
    (h5 : colSum (fun r => r.xga_away) data ≠ 0)
    (h6 : colSum (fun r => r.xga_home) data ≠ 0) :
    predict_goals hn an data =
      .ok
        (.fin (home_team.avg_xg_home * away_team.avg_xga_away /
            (colSum (fun r => r.xga_away) data /
              colSum (fun r => (r.away_games_played : ℚ)) data)),
         .fin (away_team.avg_xg_away * home_team.avg_xga_home /
            (colSum (fun r => r.xga_home) data /
              colSum (fun r => (r.home_games_played : ℚ)) data))) := by
  have hda : colSum (fun r => r.xga_away) data /
      colSum (fun r => (r.away_games_played : ℚ)) data ≠ 0 := div_ne_zero h5 h3
  have hdh : colSum (fun r => r.xga_home) data /
      colSum (fun r => (r.home_games_played : ℚ)) data ≠ 0 := div_ne_zero h6 h4
  unfold predict_goals
  rw [h1, h2]
  simp [FVal.div, h3, h4, hda, hdh]

/-- Counterexample for claim C2 as stated: on a table whose summed
    games-played per venue are nonzero but whose league-wide away xGA
    sum is zero, the code divides by a zero league average and returns
    nan for the home expected goals, not the value of the formula. -/
theorem predict_goals_formula_cx :
    colSum (fun r => (r.away_games_played : ℚ)) tblZ ≠ 0 ∧
    colSum (fun r => (r.home_games_played : ℚ)) tblZ ≠ 0 ∧
    tblZ.find? (fun r => r.team == "A") = some rowZA ∧
    tblZ.find? (fun r => r.team == "B") = some rowZB ∧
    predict_goals "A" "B" tblZ = .ok (.nan, .fin 1) ∧
    predict_goals "A" "B" tblZ ≠
      .ok
        (.fin (rowZA.avg_xg_home * rowZB.avg_xga_away /
            (colSum (fun r => r.xga_away) tblZ /
              colSum (fun r => (r.away_games_played : ℚ)) tblZ)),
         .fin (rowZB.avg_xg_away * rowZA.avg_xga_home /
            (colSum (fun r => r.xga_home) tblZ /
              colSum (fun r => (r.home_games_played : ℚ)) tblZ))) := by
  have e1 : tblZ.find? (fun r => r.team == "A") = some rowZA := rfl
  have e2 : tblZ.find? (fun r => r.team == "B") = some rowZB := rfl
  have hp : predict_goals "A" "B" tblZ = .ok (.nan, .fin 1) := by
    unfold predict_goals
    rw [e1, e2]
    norm_num [colSum, tblZ, rowZA, rowZB, FVal.div]
  refine ⟨by norm_num [colSum, tblZ, rowZA, rowZB], by norm_num [colSum, tblZ, rowZA, rowZB],
    e1, e2, hp, ?_⟩
  rw [hp]
  norm_num [colSum, tblZ, rowZA, rowZB]
  decide

/-- Witness for the amended claim C2: a home average home xG of 3/2,
    an opposing average away xGA of 1 and a league away-conceded
    average of 1 give exactly 3/2 home expected goals. -/
theorem predict_goals_formula_witness :
    predict_goals "A" "B" tblW = .ok (.fin (3 / 2), .fin 1) := by
  rw [predict_goals_formula "A" "B" tblW rowWA rowWB rfl rfl
    (by norm_num [colSum, tblW, rowWA, rowWB]) (by norm_num [colSum, tblW, rowWA, rowWB])
    (by norm_num [colSum, tblW, rowWA, rowWB]) (by norm_num [colSum, tblW, rowWA, rowWB])]
  norm_num [colSum, tblW, rowWA, rowWB]

/-- Claim C3: on a table whose league-wide summed away games played is
    zero, the code computes the league average as 0 / 0, which is nan,
    and the nan propagates into the returned home expected goals — the
    deterministic no-NaN fallback the spec requires does not happen. -/
theorem predict_goals_degenerate_nan :
    colSum (fun r => (r.away_games_played : ℚ)) tblDeg = 0 ∧
    predict_goals "A" "B" tblDeg = .ok (.nan, .fin 0) := by
  have e1 : tblDeg.find? (fun r => r.team == "A") = some rowDA := rfl
  have e2 : tblDeg.find? (fun r => r.team == "B") = some rowDB := rfl
  refine ⟨by norm_num [colSum, tblDeg, rowDA, rowDB], ?_⟩
  unfold predict_goals
  rw [e1, e2]
  norm_num [colSum, tblDeg, rowDA, rowDB, FVal.div]

/-- Claim C4, amended: when either requested team is absent from the
    table the prediction fails, but with the positional index error of
    the first-row lookup, which carries no team name, not with an
    unknown-team error naming the missing team. -/
theorem predict_goals_missing_team (hn an : String) (data : List TeamRow)
    (h : data.find? (fun r => r.team == hn) = none ∨
         data.find? (fun r => r.team == an) = none) :
    predict_goals hn an data = .error .indexError := by
  unfold predict_goals
  rcases h with h | h
  · rw [h]
  · cases hf : data.find? (fun r => r.team == hn) with
    | none => rfl
    | some t => rw [h]

/-- Witness for the amended claim C4 at a concrete missing team. -/
theorem predict_goals_missing_team_witness :
    predict_goals "X" "B" tblW = .error .indexError :=
  predict_goals_missing_team "X" "B" tblW (Or.inl (by decide))

/-- Counterexample for claim C4 as stated: with team X absent from the
    table the prediction fails with the positional index error, not
    with the spec-mandated unknown-team error kind. -/
theorem predict_goals_missing_team_cx :
    tblW.find? (fun r => r.team == "X") = none ∧
    predict_goals "X" "B" tblW = .error .indexError ∧
    isUnknownTeamErr (predict_goals "X" "B" tblW) = false := by
  have e : tblW.find? (fun r => r.team == "X") = none := by decide
  have hp : predict_goals "X" "B" tblW = .error .indexError := by
    unfold predict_goals
    rw [e]
  exact ⟨e, hp, by rw [hp]; rfl⟩

/-- Folding the strict-improvement step over a list, starting from a
    candidate with its own value, selects the first maximum of the
    candidate followed by the list: every element before the selected
    one is strictly below it and every element after it is at most
    it. -/
theorem foldl_selStep_some {α : Type} [LinearOrder α] (f : ℕ × ℕ → α) (l : List (ℕ × ℕ))
    (b : ℕ × ℕ) :
    ∃ b1 l1 l2,
      l.foldl (selStep f) (some (b, f b)) = some (b1, f b1) ∧
      b :: l = l1 ++ b1 :: l2 ∧
      (∀ c ∈ l1, f c < f b1) ∧
      (∀ c ∈ l2, f c ≤ f b1) := by
  induction l using List.reverseRecOn with
  | nil => exact ⟨b, [], [], rfl, rfl, by simp, by simp⟩
  | append_singleton l c ih =>
    obtain ⟨b1, l1, l2, hfold, hdec, hlt, hle⟩ := ih
    simp only [List.foldl_append, List.foldl_cons, List.foldl_nil, hfold]
    by_cases hc : f b1 < f c
    · refine ⟨c, l1 ++ b1 :: l2, [], ?_, ?_, ?_, by simp⟩
      · simp [selStep, hc]
      · rw [← List.cons_append, hdec]
      · intro x hx
        rcases List.mem_append.mp hx with hx | hx
        · exact lt_trans (hlt x hx) hc
        · rcases List.mem_cons.mp hx with hx | hx
          · rw [hx]; exact hc
          · exact lt_of_le_of_lt (hle x hx) hc
    · refine ⟨b1, l1, l2 ++ [c], ?_, ?_, hlt, ?_⟩
      · simp [selStep, hc]
      · rw [← List.cons_append, hdec]
        simp
      · intro x hx
        rcases List.mem_append.mp hx with hx | hx
        · exact hle x hx
        · rw [List.mem_singleton.mp hx]
          exact not_lt.mp hc

/-- Claim C5: on every probability grid, the best-guess selection
    returns the candidate in the canonical order (home goals ascending,
    then away goals ascending) that is the first maximiser of expected
    points — its expected points are at least those of every candidate,
    every candidate strictly before it in the order has strictly
    smaller expected points — and the most-likely-score selection is
    the first maximiser of cell probability under the identical
    tie-break. -/
theorem optimizer_first_argmax {α : Type} [LinearOrderedField α] (prob : ℕ → ℕ → α)
    (hnn : ∀ c ∈ cells, 0 ≤ prob c.1 c.2) :
    (best_guess prob ∈ cells ∧
      (∀ c ∈ cells, expPoints prob c ≤ expPoints prob (best_guess prob)) ∧
      (∃ l1 l2, cells = l1 ++ best_guess prob :: l2 ∧
        (∀ c ∈ l1, expPoints prob c < expPoints prob (best_guess prob)) ∧
        (∀ c ∈ l2, expPoints prob c ≤ expPoints prob (best_guess prob)))) ∧
    (most_likely prob ∈ cells ∧
      (∀ c ∈ cells, prob c.1 c.2 ≤ prob (most_likely prob).1 (most_likely prob).2) ∧
      (∃ l1 l2, cells = l1 ++ most_likely prob :: l2 ∧
        (∀ c ∈ l1, prob c.1 c.2 < prob (most_likely prob).1 (most_likely prob).2) ∧
        (∀ c ∈ l2, prob c.1 c.2 ≤ prob (most_likely prob).1 (most_likely prob).2))) := by
  have hcells : cells = (0, 0) :: cells.tail := by decide
  constructor
  · -- best guess: the fold starts from none, so the first candidate
    -- (0,0) always installs itself, as with the minus-infinity start.
    obtain ⟨b1, l1, l2, hfold, hdec, hlt, hle⟩ :=
      foldl_selStep_some (expPoints prob) cells.tail (0, 0)
    have hbg : best_guess prob = b1 := by
      unfold best_guess
      rw [hcells, List.foldl_cons]
      have h0 : selStep (expPoints prob) none (0, 0) =
          some ((0, 0), expPoints prob (0, 0)) := rfl
      rw [h0, hfold]
      rfl
    have hdec2 : cells = l1 ++ b1 :: l2 := by rw [hcells]; exact hdec
    rw [hbg]
    refine ⟨?_, ?_, l1, l2, hdec2, hlt, hle⟩
    · rw [hdec2]
      exact List.mem_append.mpr (Or.inr (List.mem_cons_self _ _))
    · intro c hc
      rw [hdec2] at hc
      rcases List.mem_append.mp hc with hc | hc
      · exact le_of_lt (hlt c hc)
      · rcases List.mem_cons.mp hc with hc | hc
        · rw [hc]
        · exact hle c hc
  · -- most likely score: the running maximum starts at 0, and the
    -- first cell scanned is (0,0) itself, so with nonnegative
    -- probabilities the scan behaves as if started at prob (0,0).
    have h00 : (0, 0) ∈ cells := by rw [hcells]; exact List.mem_cons_self _ _
    have h0nn : 0 ≤ prob 0 0 := hnn (0, 0) h00
    obtain ⟨b1, l1, l2, hfold, hdec, hlt, hle⟩ :=
      foldl_selStep_some (fun c => prob c.1 c.2) cells.tail (0, 0)
    have hstart :
        selStep (fun c => prob c.1 c.2) (some ((0, 0), 0)) (0, 0) =
          some ((0, 0), prob 0 0) := by
      simp only [selStep]
      rcases lt_or_eq_of_le h0nn with h | h
      · rw [if_pos h]
      · rw [if_neg (by rw [← h]; exact lt_irrefl 0), ← h]
    have hml : most_likely prob = b1 := by
      unfold most_likely
      rw [hcells, List.foldl_cons, hstart, hfold]
      rfl
    have hdec2 : cells = l1 ++ b1 :: l2 := by rw [hcells]; exact hdec
    rw [hml]
    refine ⟨?_, ?_, l1, l2, hdec2, hlt, hle⟩
    · rw [hdec2]
      exact List.mem_append.mpr (Or.inr (List.mem_cons_self _ _))
    · intro c hc
      rw [hdec2] at hc
      rcases List.mem_append.mp hc with hc | hc
      · exact le_of_lt (hlt c hc)
      · rcases List.mem_cons.mp hc with hc | hc
        · rw [hc]
        · exact hle c hc

/-- Concrete rational probability grid used to instantiate the
    optimizer theorem. -/
def probW : ℕ → ℕ → ℚ := fun h a => if h = 2 ∧ a = 1 then 1 else 0

/-- Witness for claim C5: the optimality and first-occurrence
    properties instantiated at a concrete nonnegative grid. -/
theorem optimizer_first_argmax_witness :
    (∀ c ∈ cells, 0 ≤ probW c.1 c.2) ∧
    best_guess probW ∈ cells ∧
    (∀ c ∈ cells, expPoints probW c ≤ expPoints probW (best_guess probW)) ∧
    most_likely probW ∈ cells ∧
    (∀ c ∈ cells, probW c.1 c.2 ≤ probW (most_likely probW).1 (most_likely probW).2) := by
  have hnn : ∀ c ∈ cells, 0 ≤ probW c.1 c.2 := by
    intro c _
    by_cases h : c.1 = 2 ∧ c.2 = 1 <;> simp [probW, h]
  have h := optimizer_first_argmax probW hnn
  exact ⟨hnn, h.1.1, h.1.2.1, h.2.1, h.2.2.1⟩

/-- Claim C6: for nonnegative expected goals the score distribution is
    a dense grid with exactly one entry per scoreline pair with both
    coordinates between 0 and 6, whose probability is exactly the
    product of the two Poisson marginals — no renormalisation of the
    discarded tail mass. -/
theorem scoreGrid_spec (lam_home lam_away : ℝ) (_h1 : 0 ≤ lam_home) (_h2 : 0 ≤ lam_away) :
    cells.Nodup ∧
    (scoreGrid lam_home lam_away).map (fun e => (e.1, e.2.1)) = cells ∧
    (∀ h a : ℕ, h ≤ 6 → a ≤ 6 →
      (h, a, poissonPMF lam_home h * poissonPMF lam_away a) ∈ scoreGrid lam_home lam_away) ∧
    (∀ e ∈ scoreGrid lam_home lam_away,
      e.1 ≤ 6 ∧ e.2.1 ≤ 6 ∧ e.2.2 = poissonPMF lam_home e.1 * poissonPMF lam_away e.2.1) := by
  refine ⟨by decide, rfl, ?_, ?_⟩
  · intro h a hh ha
    unfold scoreGrid
    refine List.mem_map.mpr ⟨(h, a), ?_, rfl⟩
    unfold cells
    refine List.mem_flatMap.mpr ⟨h, List.mem_range.mpr (by omega), ?_⟩
    exact List.mem_map.mpr ⟨a, List.mem_range.mpr (by omega), rfl⟩
  · intro e he
    unfold scoreGrid at he
    obtain ⟨c, hc, rfl⟩ := List.mem_map.mp he
    unfold cells at hc
    obtain ⟨x, hx, hcx⟩ := List.mem_flatMap.mp hc
    obtain ⟨y, hy, rfl⟩ := List.mem_map.mp hcx
    have hx7 := List.mem_range.mp hx
    have hy7 := List.mem_range.mp hy
    refine ⟨?_, ?_, rfl⟩
    · show x ≤ 6
      omega
    · show y ≤ 6
      omega

/-- Witness for claim C6 at expected goals one each. -/
theorem scoreGrid_spec_witness :
    (0 : ℝ) ≤ 1 ∧ cells.Nodup ∧
    (scoreGrid 1 1).map (fun e => (e.1, e.2.1)) = cells ∧
    (1, 1, poissonPMF 1 1 * poissonPMF 1 1) ∈ scoreGrid 1 1 := by
  have h := scoreGrid_spec 1 1 (by norm_num) (by norm_num)
  exact ⟨by norm_num, h.1, h.2.1, h.2.2.1 1 1 (by norm_num) (by norm_num)⟩

/-- The Poisson pmf is nonnegative for a nonnegative rate. -/
theorem poissonPMF_nonneg (lam : ℝ) (h : 0 ≤ lam) (k : ℕ) : 0 ≤ poissonPMF lam k := by
  unfold poissonPMF
  have h3 : (0 : ℝ) < (Nat.factorial k : ℝ) := by exact_mod_cast Nat.factorial_pos k
  exact div_nonneg (mul_nonneg (Real.exp_pos _).le (pow_nonneg h k)) h3.le

/-- The truncated pmf sum rewritten with the exponential factored
    out. -/
theorem poissonPMF_sum_eq (lam : ℝ) (n : ℕ) :
    (∑ k ∈ Finset.range n, poissonPMF lam k) =
      Real.exp (-lam) * ∑ k ∈ Finset.range n, lam ^ k / (Nat.factorial k : ℝ) := by
  rw [Finset.mul_sum]
  refine Finset.sum_congr rfl ?_
  intro k _
  unfold poissonPMF
  ring

/-- The truncated pmf sum is at most one for a nonnegative rate. -/
theorem truncSum_le_one (lam : ℝ) (h : 0 ≤ lam) :
    (∑ k ∈ Finset.range 7, poissonPMF lam k) ≤ 1 := by
  rw [poissonPMF_sum_eq]
  calc Real.exp (-lam) * ∑ k ∈ Finset.range 7, lam ^ k / (Nat.factorial k : ℝ)
      ≤ Real.exp (-lam) * Real.exp lam :=
        mul_le_mul_of_nonneg_left (Real.sum_le_exp_of_nonneg h 7) (Real.exp_pos _).le
    _ = 1 := by rw [← Real.exp_add, neg_add_cancel, Real.exp_zero]

/-- The truncated pmf sum is strictly below one for a positive rate:
    truncation leaves tail mass. -/
theorem truncSum_lt_one (lam : ℝ) (h : 0 < lam) :
    (∑ k ∈ Finset.range 7, poissonPMF lam k) < 1 := by
  rw [poissonPMF_sum_eq]
  have hstep : (∑ k ∈ Finset.range 7, lam ^ k / (Nat.factorial k : ℝ)) <
      ∑ k ∈ Finset.range 8, lam ^ k / (Nat.factorial k : ℝ) := by
    have h8 : (∑ k ∈ Finset.range 8, lam ^ k / (Nat.factorial k : ℝ)) =
        (∑ k ∈ Finset.range 7, lam ^ k / (Nat.factorial k : ℝ)) +
          lam ^ 7 / (Nat.factorial 7 : ℝ) := Finset.sum_range_succ _ 7
    have hpos : 0 < lam ^ 7 / (Nat.factorial 7 : ℝ) := by
      apply div_pos (pow_pos h 7)
      norm_num [Nat.factorial]
    rw [h8]
    linarith
  have hlt : (∑ k ∈ Finset.range 7, lam ^ k / (Nat.factorial k : ℝ)) < Real.exp lam :=
    lt_of_lt_of_le hstep (Real.sum_le_exp_of_nonneg h.le 8)
  calc Real.exp (-lam) * ∑ k ∈ Finset.range 7, lam ^ k / (Nat.factorial k : ℝ)
      < Real.exp (-lam) * Real.exp lam := by
        exact mul_lt_mul_of_pos_left hlt (Real.exp_pos _)
    _ = 1 := by rw [← Real.exp_add, neg_add_cancel, Real.exp_zero]

/-- Multiplying every summand on the left scales the list sum. -/
theorem sum_map_mul_left_list (r : ℝ) (f : ℕ → ℝ) (l : List ℕ) :
    (l.map fun y => r * f y).sum = r * (l.map f).sum := by
  induction l with
  | nil => simp
  | cons y ys ih => simp [ih, mul_add]

/-- Summing a product function over the cell grid factorises into the
    product of the two marginal sums. -/
theorem sum_cells_mul (g h : ℕ → ℝ) (l1 l2 : List ℕ) :
    ((l1.flatMap (fun x => l2.map (fun y => (x, y)))).map (fun c => g c.1 * h c.2)).sum =
      (l1.map g).sum * (l2.map h).sum := by
  induction l1 with
  | nil => simp
  | cons x xs ih =>
    rw [List.flatMap_cons, List.map_append, List.sum_append, ih, List.map_map]
    have hcomp : ((fun c : ℕ × ℕ => g c.1 * h c.2) ∘ fun y => (x, y)) =
        fun y => g x * h y := rfl
    rw [hcomp, sum_map_mul_left_list, List.map_cons, List.sum_cons, add_mul]

/-- The sum over an initial range of naturals as a list equals the
    corresponding finite sum. -/
theorem list_range_sum_eq (f : ℕ → ℝ) (n : ℕ) :
    ((List.range n).map f).sum = ∑ k ∈ Finset.range n, f k := by
  induction n with
  | zero => simp
  | succ n ih =>
    rw [List.range_succ, List.map_append, List.sum_append, Finset.sum_range_succ, ih]
    simp

/-- Claim C7: for every nonnegative rate the truncated pmf sum over
    scores 0..6 is at most 1, strictly below 1 for a positive rate,
    and consequently the full truncated probability table for one
    fixture sums to at most 1. -/
theorem poisson_truncated_sum (lam : ℝ) (hl : 0 ≤ lam) :
    (∑ k ∈ Finset.range 7, poissonPMF lam k) ≤ 1 ∧
    (0 < lam → (∑ k ∈ Finset.range 7, poissonPMF lam k) < 1) ∧
    (∀ mu : ℝ, 0 ≤ mu → ((scoreGrid lam mu).map (fun e => e.2.2)).sum ≤ 1) := by
  refine ⟨truncSum_le_one lam hl, fun h => truncSum_lt_one lam h, ?_⟩
  intro mu hmu
  have hmap : (scoreGrid lam mu).map (fun e => e.2.2) =
      cells.map (fun c => poissonPMF lam c.1 * poissonPMF mu c.2) := by
    unfold scoreGrid
    rw [List.map_map]
    rfl
  rw [hmap]
  unfold cells
  rw [sum_cells_mul, list_range_sum_eq, list_range_sum_eq]
  have h2n : 0 ≤ ∑ k ∈ Finset.range 7, poissonPMF mu k :=
    Finset.sum_nonneg (fun k _ => poissonPMF_nonneg mu hmu k)
  exact mul_le_one₀ (truncSum_le_one lam hl) h2n (truncSum_le_one mu hmu)

/-- Witness for claim C7 at rate one. -/
theorem poisson_truncated_sum_witness :
    (0 : ℝ) ≤ 1 ∧ (0 : ℝ) < 1 ∧
    (∑ k ∈ Finset.range 7, poissonPMF 1 k) ≤ 1 ∧
    (∑ k ∈ Finset.range 7, poissonPMF 1 k) < 1 ∧
    ((scoreGrid 1 1).map (fun e => e.2.2)).sum ≤ 1 := by
  have h := poisson_truncated_sum 1 (by norm_num)
  exact ⟨by norm_num, by norm_num, h.1, h.2.1 (by norm_num), h.2.2 1 (by norm_num)⟩

/-- Claim C9: running the estimator and the optimizer in their
    state-threaded forms returns the league table exactly as it was
    given — the core computes the same values as the pure functions
    and performs no mutation of the table. -/
theorem core_pure_frame (hn an : String) (data : List TeamRow) :
    (predict_goals_st hn an data).2 = data ∧
    (best_superbru_prediction_st hn an data).2 = data ∧
    (predict_goals_st hn an data).1 = predict_goals hn an data ∧
    (best_superbru_prediction_st hn an data).1 = best_superbru_prediction hn an data := by
  refine ⟨?_, ?_, ?_, ?_⟩
  · unfold predict_goals_st
    dsimp only
    cases data.find? (fun r => r.team == hn) <;>
      cases data.find? (fun r => r.team == an) <;> rfl
  · unfold best_superbru_prediction_st predict_goals_st
    dsimp only
    cases data.find? (fun r => r.team == hn) <;>
      cases data.find? (fun r => r.team == an) <;> rfl
  · unfold predict_goals_st predict_goals
    dsimp only
    cases data.find? (fun r => r.team == hn) <;>
      cases data.find? (fun r => r.team == an) <;> rfl
  · unfold best_superbru_prediction_st best_superbru_prediction predict_goals_st predict_goals
    dsimp only
    cases data.find? (fun r => r.team == hn) <;>
      cases data.find? (fun r => r.team == an) <;> rfl

end App
